import Mathlib

/-!
Verification of the valuation engine in `app.py` (company value evaluation
dashboard).  The definitions below are a shallow embedding of the arithmetic
core of the script: consensus-growth fallback chain, historical-P/E band
statistics, forward-EPS adjustment, PEG classification, price-CAGR historical
growth, growth blending, the data-pollution check and the recent-searches
list update.  Machine floats are modelled by exact rationals (reals where a
fractional power is involved); Python truthiness of a numeric field is
modelled as the value being nonzero; absent values are `Option`.
-/

/-- Clamp `x` to the interval `[lo, hi]`, mirroring
`max(lo, min(x, hi))` in the source. -/
def clampQ (lo hi x : ℚ) : ℚ := max lo (min x hi)

/-- Weighted blend of consensus and historical growth, from
`g_method1 = (g_c * weight_1) + (g_h_1 * (1 - weight_1))` in `app.py`. -/
def blend (c h w : ℚ) : ℚ := c * w + h * (1 - w)

/-- Default analyst weight of the blend slider
(`st.slider("分析师权重", 0.0, 1.0, 0.7, 0.05, ...)`). -/
def defaultAnalystWeight : ℚ := 7/10

/-- Forward PEG ratio, from
`if g_blended > 0 and data['pe_fwd'] and data['pe_fwd'] > 0:
  forward_peg = data['pe_fwd'] / g_blended`
in `app.py`; `none` models the "数据不足" (insufficient data) branch. -/
def forwardPeg (pe_fwd g_blended : ℚ) : Option ℚ :=
  if 0 < g_blended ∧ pe_fwd ≠ 0 ∧ 0 < pe_fwd then some (pe_fwd / g_blended) else none

/-- The five PEG verdict tiers displayed by `app.py`. -/
inductive PegClass where
  | extremeUndervalued
  | undervalued
  | fair
  | overvalued
  | severeOvervalued
deriving DecidableEq

/-- The five-tier PEG classifier, from the `if forward_peg < 0.5 ... elif
forward_peg < 0.8 ... elif forward_peg <= 1.2 ... elif forward_peg <= 2.0
... else ...` chain in `app.py`. -/
def pegClassify (peg : ℚ) : PegClass :=
  if peg < 1/2 then .extremeUndervalued
  else if peg < 4/5 then .undervalued
  else if peg ≤ 6/5 then .fair
  else if peg ≤ 2 then .overvalued
  else .severeOvervalued

/-- The severe data-pollution flag, from
`if data['eps_fwd'] and data['eps_ttm'] and data['eps_ttm'] > 0:
   eps_ratio = data['eps_fwd'] / data['eps_ttm']
   if eps_ratio > 1.5: st.error(...)` in `app.py`.
The flag depends only on the two EPS figures. -/
def pollutionSevere (eps_fwd eps_ttm : ℚ) : Bool :=
  if eps_fwd ≠ 0 ∧ eps_ttm ≠ 0 ∧ 0 < eps_ttm then
    decide ((3/2 : ℚ) < eps_fwd / eps_ttm)
  else false

/-- The forward-EPS display adjustment, from
`fwd_eps_display = data['eps_fwd']` followed by
`if data['eps_fwd'] and data['eps_ttm'] and data['eps_fwd'] < data['eps_ttm'] * 0.5:
   if data['g_consensus'] and data['g_consensus'] > -30:
     fwd_eps_display = data['eps_ttm'] * (1 + data['g_consensus']/100)`
in `app.py`. -/
def fwd_eps_display (eps_fwd eps_ttm g_cons : ℚ) : ℚ :=
  if eps_fwd ≠ 0 ∧ eps_ttm ≠ 0 ∧ eps_fwd < eps_ttm * (1/2) then
    if g_cons ≠ 0 ∧ -30 < g_cons then eps_ttm * (1 + g_cons / 100) else eps_fwd
  else eps_fwd

/-- C8: the blended growth equals `c·w + h·(1−w)` for every weight in `[0,1]`,
`blend c h 0 = h`, `blend c h 1 = c`, and the default weight is 0.7. -/
theorem c8_blend (c h w : ℚ) (_hw0 : 0 ≤ w) (_hw1 : w ≤ 1) :
    blend c h w = c * w + h * (1 - w) ∧ blend c h 0 = h ∧ blend c h 1 = c ∧
      defaultAnalystWeight = 7/10 := by
  refine ⟨rfl, ?_, ?_, rfl⟩
  · simp [blend]
  · simp [blend]

/-- Witness for `c8_blend` at `c = 3`, `h = 5`, `w = 1/2`. -/
theorem c8_blend_witness :
    blend 3 5 (1/2) = 3 * (1/2) + 5 * (1 - 1/2) ∧ blend 3 5 0 = 5 ∧
      blend 3 5 1 = 3 ∧ defaultAnalystWeight = 7/10 :=
  c8_blend 3 5 (1/2) (by norm_num) (by norm_num)

/-- C4 counterexample: with P/E 20 and blended growth 10 the PEG is exactly 2.0,
and the classifier puts 2.0 in the "overvalued" tier, not the
"severely overvalued" tier the claim names. -/
theorem c4_counterexample :
    forwardPeg 20 10 = some 2 ∧ pegClassify 2 = PegClass.overvalued ∧
      PegClass.overvalued ≠ PegClass.severeOvervalued := by
  refine ⟨by norm_num [forwardPeg], by norm_num [pegClassify], by simp⟩

/-- C4 amended: whenever blended growth and the forward P/E are strictly
positive, PEG = P/E divided by blended growth; at P/E 20 and growth 10 the PEG
is 2.0 and is classified "overvalued" (tier 1.2 < PEG ≤ 2.0); the
"severely overvalued" tier applies exactly when PEG > 2.0. -/
theorem c4_amended :
    (∀ pe g : ℚ, 0 < g → 0 < pe → forwardPeg pe g = some (pe / g)) ∧
      forwardPeg 20 10 = some 2 ∧ pegClassify 2 = PegClass.overvalued ∧
      (∀ x : ℚ, pegClassify x = PegClass.severeOvervalued ↔ 2 < x) := by
  refine ⟨?_, by norm_num [forwardPeg], by norm_num [pegClassify], ?_⟩
  · intro pe g hg hpe
    simp [forwardPeg, hg, hpe, ne_of_gt hpe]
  · intro x
    unfold pegClassify
    split_ifs with h1 h2 h3 h4 <;> simp <;> linarith

/-- Witness for `c4_amended` at P/E 20 and blended growth 10. -/
theorem c4_amended_witness : forwardPeg 20 10 = some (20 / 10) :=
  c4_amended.1 20 10 (by norm_num) (by norm_num)

/-- C9 counterexample: with trailing P/E 120 > 100 and forward P/E 30 < 50 but
forward EPS equal to trailing EPS (ratio 1 ≤ 1.5), the claim's parenthetical
trigger holds, yet the code raises no pollution flag: the check never looks at
the P/E figures. -/
theorem c9_counterexample :
    ((100:ℚ) < 120 ∧ (30:ℚ) < 50) ∧ pollutionSevere 1 1 = false := by
  refine ⟨by norm_num, by norm_num [pollutionSevere]⟩

/-- C9 amended: the unreliable-trailing-earnings flag is raised exactly when
both EPS figures are nonzero, trailing EPS is strictly positive and
forwardEPS / trailingEPS > 1.5; no trailing/forward P/E condition exists, and
the flag depends only on the EPS figures, independent of any band
classification. -/
theorem c9_amended (f t : ℚ) :
    pollutionSevere f t = true ↔ (f ≠ 0 ∧ 0 < t ∧ (3/2 : ℚ) < f / t) := by
  unfold pollutionSevere
  split_ifs with h
  · simp only [decide_eq_true_eq]
    exact ⟨fun hr => ⟨h.1, h.2.2, hr⟩, fun hr => hr.2.2⟩
  · simp only [Bool.false_eq_true, false_iff]
    intro hr
    exact h ⟨hr.1, ne_of_gt hr.2.1, hr.2.1⟩

/-- C10 counterexample: with forward EPS −1 (not positive), trailing EPS 2 and
consensus growth 10, the claim says the reported forward EPS is used
unchanged, but the code still adjusts it to 2 × (1 + 10/100) = 11/5, because
its guard only tests truthiness (nonzero), not positivity. -/
theorem c10_counterexample :
    fwd_eps_display (-1) 2 10 = 11/5 ∧ (11/5 : ℚ) ≠ -1 := by
  refine ⟨by norm_num [fwd_eps_display], by norm_num⟩

/-- C10 amended: the adjusted EPS `trailingEPS × (1 + consensusGrowth/100)` is
used whenever forward EPS and trailing EPS are both nonzero (not necessarily
positive), forward EPS < 0.5 × trailing EPS, and consensus growth is nonzero
and exceeds −30; in every other case the reported forward EPS is used
unchanged. -/
theorem c10_amended (f t g : ℚ) :
    (f ≠ 0 → t ≠ 0 → f < t * (1/2) → g ≠ 0 → -30 < g →
      fwd_eps_display f t g = t * (1 + g / 100)) ∧
    (¬(f ≠ 0 ∧ t ≠ 0 ∧ f < t * (1/2) ∧ g ≠ 0 ∧ -30 < g) →
      fwd_eps_display f t g = f) := by
  constructor
  · intro h1 h2 h3 h4 h5
    unfold fwd_eps_display
    rw [if_pos ⟨h1, h2, h3⟩, if_pos ⟨h4, h5⟩]
  · intro hnot
    unfold fwd_eps_display
    split_ifs with ho hi
    · exact absurd ⟨ho.1, ho.2.1, ho.2.2, hi.1, hi.2⟩ hnot
    · rfl
    · rfl

/-- Witness for `c10_amended` at forward EPS −1, trailing EPS 2, growth 10. -/
theorem c10_amended_witness : fwd_eps_display (-1) 2 10 = 2 * (1 + 10 / 100) :=
  (c10_amended (-1) 2 10).1 (by norm_num) (by norm_num) (by norm_num)
    (by norm_num) (by norm_num)

/-- Step 1 of the consensus-growth chain, from
`if data['eps_fwd'] > 0 and data['eps_ttm'] > 0:
   growth_rate = ((data['eps_fwd'] - data['eps_ttm']) / data['eps_ttm']) * 100`
in `get_stock_data`. -/
def gStep1 (eps_fwd eps_ttm : ℚ) : Option ℚ :=
  if 0 < eps_fwd ∧ 0 < eps_ttm then some ((eps_fwd - eps_ttm) / eps_ttm * 100)
  else none

/-- The trigger of step 2: `growth_rate is None or abs(growth_rate) > 100`. -/
def gPolluted (g : Option ℚ) : Bool :=
  match g with
  | none => true
  | some v => decide (100 < |v|)

/-- Step 2 of the chain: the FMP analyst-estimate fallback, from
`if growth_rate is None or abs(growth_rate) > 100: ...
   est_eps = g_data[0].get('estimatedEpsAvg', 0)
   if est_eps and est_eps > 0 and data['eps_ttm'] > 0:
     growth_rate = ((est_eps - data['eps_ttm']) / data['eps_ttm']) * 100`.
`est_eps = none` models a failed or empty FMP response. -/
def gStep2 (eps_ttm : ℚ) (est_eps : Option ℚ) (g1 : Option ℚ) : Option ℚ :=
  if gPolluted g1 then
    match est_eps with
    | some e =>
      if 0 < e ∧ 0 < eps_ttm then some ((e - eps_ttm) / eps_ttm * 100) else g1
    | none => g1
  else g1

/-- Step 3 of the chain, from
`if growth_rate is None:
   growth_5y = yf_info.get('earningsQuarterlyGrowth', None)
   if growth_5y: growth_rate = growth_5y * 100`. -/
def gStep3 (qgrowth : Option ℚ) (g2 : Option ℚ) : Option ℚ :=
  match g2 with
  | some v => some v
  | none =>
    match qgrowth with
    | some q => if q ≠ 0 then some (q * 100) else none
    | none => none

/-- The consensus growth rate: the three fallback steps, then the default
`growth_rate = 10.0` and the clamp
`growth_rate = max(-50.0, min(growth_rate, 200.0))` from `get_stock_data`. -/
def gConsensus (eps_fwd eps_ttm : ℚ) (est_eps qgrowth : Option ℚ) : ℚ :=
  clampQ (-50) 200 ((gStep3 qgrowth (gStep2 eps_ttm est_eps (gStep1 eps_fwd eps_ttm))).getD 10)

/-- C2 counterexample: with forward EPS 30, trailing EPS 2 (step 1 yields 1400,
magnitude above 100, hence "implausible"), no analyst estimate, and a
quarterly-earnings-growth figure of 0.5 available, the claimed chain would
fall through to step 3 and give 50, but the code keeps the step-1 value and
returns the clamped 200. -/
theorem c2_counterexample :
    gConsensus 30 2 none (some (1/2)) = 200 ∧ (200 : ℚ) ≠ 50 := by
  constructor
  · norm_num [gConsensus, gStep1, gStep2, gStep3, gPolluted, clampQ]
  · norm_num

/-- C2 amended: steps 1, 2 and the final clamp are as claimed, but the
quarterly-growth step 3 is consulted only when neither step 1 nor step 2
produced any value; a step-1 value of magnitude above 100 that step 2 fails
to replace is retained and clamped, and the default 10.0 applies only when
all three steps produced nothing. -/
theorem c2_amended :
    (∀ (fwd ttm : ℚ) (e q : Option ℚ), 0 < fwd → 0 < ttm →
      |(fwd - ttm) / ttm * 100| ≤ 100 →
      gConsensus fwd ttm e q = clampQ (-50) 200 ((fwd - ttm) / ttm * 100)) ∧
    (∀ (fwd ttm e : ℚ) (q : Option ℚ), 0 < ttm → 0 < e →
      (fwd ≤ 0 ∨ 100 < |(fwd - ttm) / ttm * 100|) →
      gConsensus fwd ttm (some e) q = clampQ (-50) 200 ((e - ttm) / ttm * 100)) ∧
    (∀ (fwd ttm : ℚ) (q : Option ℚ), 0 < fwd → 0 < ttm →
      100 < |(fwd - ttm) / ttm * 100| →
      gConsensus fwd ttm none q = clampQ (-50) 200 ((fwd - ttm) / ttm * 100)) ∧
    (∀ fwd ttm q : ℚ, ¬(0 < fwd ∧ 0 < ttm) → q ≠ 0 →
      gConsensus fwd ttm none (some q) = clampQ (-50) 200 (q * 100)) ∧
    (∀ fwd ttm : ℚ, ¬(0 < fwd ∧ 0 < ttm) →
      gConsensus fwd ttm none none = 10) := by
  refine ⟨?_, ?_, ?_, ?_, ?_⟩
  · intro fwd ttm e q hf ht h100
    have h1 : gStep1 fwd ttm = some ((fwd - ttm) / ttm * 100) := by
      simp [gStep1, hf, ht]
    have h2 : gPolluted (some ((fwd - ttm) / ttm * 100)) = false := by
      simp [gPolluted, not_lt.mpr h100]
    unfold gConsensus
    simp [gStep2, h1, h2, gStep3]
  · intro fwd ttm e q ht he hcase
    rcases hcase with hf | h100
    · have h1 : gStep1 fwd ttm = none := by
        simp [gStep1, not_lt.mpr hf]
      unfold gConsensus
      simp [gStep2, gPolluted, h1, he, ht, gStep3]
    · rcases lt_or_le 0 fwd with hf | hf
      · have h1 : gStep1 fwd ttm = some ((fwd - ttm) / ttm * 100) := by
          simp [gStep1, hf, ht]
        have h2 : gPolluted (some ((fwd - ttm) / ttm * 100)) = true := by
          simp [gPolluted, h100]
        unfold gConsensus
        simp [gStep2, h1, h2, he, ht, gStep3]
      · have h1 : gStep1 fwd ttm = none := by
          simp [gStep1, not_lt.mpr hf]
        unfold gConsensus
        simp [gStep2, gPolluted, h1, he, ht, gStep3]
  · intro fwd ttm q hf ht h100
    have h1 : gStep1 fwd ttm = some ((fwd - ttm) / ttm * 100) := by
      simp [gStep1, hf, ht]
    have h2 : gPolluted (some ((fwd - ttm) / ttm * 100)) = true := by
      simp [gPolluted, h100]
    unfold gConsensus
    simp [gStep2, h1, h2, gStep3]
  · intro fwd ttm q hnot hq
    have h1 : gStep1 fwd ttm = none := by
      simp [gStep1, hnot]
    unfold gConsensus
    simp [gStep2, gPolluted, h1, gStep3, hq]
  · intro fwd ttm hnot
    have h1 : gStep1 fwd ttm = none := by
      simp [gStep1, hnot]
    unfold gConsensus
    simp [gStep2, gPolluted, h1, gStep3]
    norm_num [clampQ]

/-- Witness for `c2_amended`: step 1 with forward EPS 11 and trailing EPS 10
yields a plausible 10, which is clamped unchanged. -/
theorem c2_amended_witness :
    gConsensus 11 10 none none = clampQ (-50) 200 ((11 - 10) / 10 * 100) :=
  c2_amended.1 11 10 none none (by norm_num) (by norm_num) (by norm_num)

/-- One row of the `recent_searches` DataFrame.  The session DataFrame is
created with columns 代码/公司/价格/Trailing PE/PEG 中枢, while
`update_recent_list` inserts rows keyed 代码 Ticker/公司 Company/价格 Price/
Forward PE/Forward PEG; after `pd.concat` the frame holds the union of the
two column sets, a missing cell being NaN (modelled as `none`). -/
structure RecentRow where
  code : Option String
  company : Option String
  price : Option String
  trailingPE : Option String
  pegCenter : Option String
  codeTicker : Option String
  companyFull : Option String
  priceFull : Option String
  forwardPE : Option String
  forwardPEG : Option String

/-- The `update_recent_list(ticker, data)` function of `app.py`: build the
new row (new-style columns only), keep the rows of the old frame whose 代码
cell differs from the upper-cased ticker (a NaN cell compares unequal, as in
pandas), prepend the new row and truncate to 10 rows. -/
def update_recent_list (ticker : String) (company price fpe fpeg : String)
    (df : List RecentRow) : List RecentRow :=
  let newRow : RecentRow :=
    { code := none, company := none, price := none, trailingPE := none,
      pegCenter := none, codeTicker := some ticker.toUpper,
      companyFull := some company, priceFull := some price,
      forwardPE := some fpe, forwardPEG := some fpeg }
  let kept := df.filter (fun r => decide (r.code ≠ some ticker.toUpper))
  (newRow :: kept).take 10

/-- Number of rows of the frame that carry the given ticker in either of the
two ticker columns. -/
def countTicker (t : String) (df : List RecentRow) : Nat :=
  df.countP (fun r => decide (r.codeTicker = some t ∨ r.code = some t))

/-- C3: inserting "AAPL" twice leaves TWO rows for AAPL, not one: the de-dup
filter tests the 代码 column, which is NaN in every row this function
inserts (they populate 代码 Ticker instead), so the filter never removes
anything. -/
theorem c3_duplicate_rows :
    countTicker ("AAPL".toUpper)
      (update_recent_list "AAPL" "Apple Inc." "$10.00" "20.00x" "2.00"
        (update_recent_list "AAPL" "Apple Inc." "$10.00" "20.00x" "2.00" []))
      = 2 ∧ (2 : Nat) ≠ 1 := by
  refine ⟨?_, by norm_num⟩
  simp [update_recent_list, countTicker, List.countP_cons, List.take]

/-- Arithmetic mean of a list of rationals (`hist_pe.mean()` in pandas). -/
def meanQ (l : List ℚ) : ℚ := l.sum / l.length

/-- The plausibility filter applied when the historical P/E series is
synthesized from price ratios:
`hist_pe = hist_pe[(hist_pe > 5) & (hist_pe < 200)]` in `get_stock_data`. -/
def filterPE (l : List ℚ) : List ℚ :=
  l.filter (fun x => decide ((5:ℚ) < x ∧ x < 200))

/-- The displayed P/E statistics `(pe_mean, pe_std)` from `app.py`:
`if not data['hist_pe'].empty: pe_mean = ...mean(); pe_std = ...std()`
`else: pe_mean = data['pe_fwd'] if data['pe_fwd'] else 20; pe_std = pe_mean * 0.3`.
Pandas' sample standard deviation is an irrational square root, so the value
it produced for the series is passed in as `histStd`; every claim about it
only assumes its sign. -/
def peStats (hist_pe : List ℚ) (histStd : ℚ) (pe_fwd : ℚ) : ℚ × ℚ :=
  if hist_pe.isEmpty then
    ((if pe_fwd ≠ 0 then pe_fwd else 20), (if pe_fwd ≠ 0 then pe_fwd else 20) * (3/10))
  else (meanQ hist_pe, histStd)

/-- The recommended P/E band `(pe_low_rec, pe_mid_rec, pe_high_rec)` from
`app.py`:
`if not data['hist_pe'].empty: pe_low_rec = max(5, pe_mean - pe_std);
 pe_mid_rec = pe_mean; pe_high_rec = pe_mean + pe_std`
`else: pe_low_rec = pe_mean * 0.7; pe_mid_rec = pe_mean;
 pe_high_rec = pe_mean * 1.3`. -/
def peBandRec (hist_pe : List ℚ) (histStd : ℚ) (pe_fwd : ℚ) : ℚ × ℚ × ℚ :=
  if hist_pe.isEmpty then
    ((if pe_fwd ≠ 0 then pe_fwd else 20) * (7/10),
      (if pe_fwd ≠ 0 then pe_fwd else 20),
      (if pe_fwd ≠ 0 then pe_fwd else 20) * (13/10))
  else
    (max 5 (meanQ hist_pe - histStd), meanQ hist_pe, meanQ hist_pe + histStd)

/-- Round-half-to-even to an integer, the tie rule of Python `round`. -/
def rhe (q : ℚ) : ℤ :=
  if q - ⌊q⌋ < 1/2 then ⌊q⌋
  else if 1/2 < q - ⌊q⌋ then ⌊q⌋ + 1
  else if ⌊q⌋ % 2 = 0 then ⌊q⌋ else ⌊q⌋ + 1

/-- `round(x, 1)` of Python, on exact rationals. -/
def round1 (q : ℚ) : ℚ := (rhe (q * 10) : ℚ) / 10

/-- The default Forward-P/E valuation band `(price_low, price_mid,
price_high)` of `app.py`: each `st.number_input` defaults to
`float(round(pe_*_rec, 1))` and the band is that multiple times the
(possibly adjusted) forward EPS:
`price_low = pe_low * fwd_eps_display` and so on, guarded by
`if fwd_eps_display and fwd_eps_display > 0`. -/
def priceBandDefault (rec : ℚ × ℚ × ℚ) (fwdEps : ℚ) : ℚ × ℚ × ℚ :=
  (round1 rec.1 * fwdEps, round1 rec.2.1 * fwdEps, round1 rec.2.2 * fwdEps)

theorem rhe_ge_floor (q : ℚ) : ⌊q⌋ ≤ rhe q := by
  unfold rhe
  split_ifs <;> omega

theorem rhe_le_floor_succ (q : ℚ) : rhe q ≤ ⌊q⌋ + 1 := by
  unfold rhe
  split_ifs <;> omega

theorem rhe_mono {a b : ℚ} (h : a ≤ b) : rhe a ≤ rhe b := by
  have hf : ⌊a⌋ ≤ ⌊b⌋ := Int.floor_le_floor h
  rcases eq_or_lt_of_le hf with heq | hlt
  · unfold rhe
    rw [← heq]
    have hab : a - ⌊a⌋ ≤ b - ⌊a⌋ := by linarith
    split_ifs <;> first | omega | linarith
  · have h1 : rhe a ≤ ⌊a⌋ + 1 := rhe_le_floor_succ a
    have h2 : ⌊b⌋ ≤ rhe b := rhe_ge_floor b
    omega

theorem round1_mono {a b : ℚ} (h : a ≤ b) : round1 a ≤ round1 b := by
  unfold round1
  have h10 : a * 10 ≤ b * 10 := by linarith
  have hr : ((rhe (a * 10) : ℤ) : ℚ) ≤ ((rhe (b * 10) : ℤ) : ℚ) := by
    exact_mod_cast rhe_mono h10
  linarith

theorem sum_ge_of_forall_ge {l : List ℚ} (hmem : ∀ x ∈ l, (5:ℚ) ≤ x) :
    5 * l.length ≤ l.sum := by
  induction l with
  | nil => simp
  | cons a t ih =>
    have ha : (5:ℚ) ≤ a := hmem a (by simp)
    have ht : 5 * (t.length : ℚ) ≤ t.sum := ih (fun x hx => hmem x (by simp [hx]))
    simp only [List.sum_cons, List.length_cons]
    push_cast
    linarith

theorem meanQ_ge_five {l : List ℚ} (hne : l ≠ [])
    (hmem : ∀ x ∈ l, (5:ℚ) ≤ x) : 5 ≤ meanQ l := by
  have hlen : 0 < (l.length : ℚ) := by
    have : 0 < l.length := List.length_pos.mpr hne
    exact_mod_cast this
  rw [meanQ, le_div_iff₀ hlen]
  exact sum_ge_of_forall_ge hmem

theorem mem_filterPE {l : List ℚ} {x : ℚ} (hx : x ∈ filterPE l) :
    (5:ℚ) < x ∧ x < 200 := by
  have := List.of_mem_filter hx
  simpa using this

/-- C1 counterexample: for a P/E series with mean 18 and sample standard
deviation 4 and EPS 5, the code's band is
`(max(5, 18−4)·5, 18·5, (18+4)·5) = (70, 90, 110)`, not the claimed
`(75, 90, 105)` that `±0.75·std` would give. -/
theorem c1_counterexample :
    priceBandDefault (peBandRec [14, 18, 22] 4 0) 5 = (70, 90, 110) ∧
      ((70:ℚ), (90:ℚ), (110:ℚ)) ≠ ((75:ℚ), (90:ℚ), (105:ℚ)) := by
  constructor
  · have hm : meanQ [14, 18, 22] = 18 := by norm_num [meanQ]
    simp only [peBandRec, List.isEmpty_cons, hm]
    norm_num [priceBandDefault, round1, rhe]
  · norm_num [Prod.ext_iff]

/-- C1 amended: for every nonempty (filtered) historical P/E series, the
band uses one standard deviation and a lower P/E floor of 5, applied to the
(possibly adjusted) forward EPS, each multiple rounded to one decimal:
`low = round₁(max(5, mean − std))·EPS`, `mid = round₁(mean)·EPS`,
`high = round₁(mean + std)·EPS`; for EPS 5, mean 18, std 4 the band is
`(70, 90, 110)`. -/
theorem c1_amended :
    (∀ (l : List ℚ) (s f eps : ℚ), l ≠ [] → 0 ≤ s → 0 < eps →
      priceBandDefault (peBandRec l s f) eps =
        (round1 (max 5 (meanQ l - s)) * eps, round1 (meanQ l) * eps,
          round1 (meanQ l + s) * eps)) ∧
    priceBandDefault (peBandRec [14, 18, 22] 4 0) 5 = (70, 90, 110) := by
  constructor
  · intro l s f eps hne _hs _heps
    have hemp : l.isEmpty = false := by
      cases l with
      | nil => exact absurd rfl hne
      | cons a t => rfl
    simp [peBandRec, hemp, priceBandDefault]
  · have hm : meanQ [14, 18, 22] = 18 := by norm_num [meanQ]
    simp only [peBandRec, List.isEmpty_cons, hm]
    norm_num [priceBandDefault, round1, rhe]

/-- Witness for `c1_amended` on the three-point series `[14, 18, 22]`. -/
theorem c1_amended_witness :
    priceBandDefault (peBandRec [14, 18, 22] 4 0) 5 =
      (round1 (max 5 (meanQ [14, 18, 22] - 4)) * 5, round1 (meanQ [14, 18, 22]) * 5,
        round1 (meanQ [14, 18, 22] + 4) * 5) :=
  c1_amended.1 [14, 18, 22] 4 0 5 (by simp) (by norm_num) (by norm_num)

/-- C5 counterexample: with an EMPTY historical P/E series (0 < 4
observations) and forward P/E 25, the code does not report not-applicable:
it synthesizes the default band `(0.7·25, 25, 1.3·25) = (17.5, 25, 32.5)`. -/
theorem c5_counterexample :
    peBandRec [] 0 25 = (35/2, 25, 65/2) := by
  norm_num [peBandRec]

/-- C5 amended: no minimum-observation check exists.  With an empty series
the method synthesizes a default band from the forward P/E (mean = forward
P/E if nonzero else 20; band = 0.7/1.0/1.3 times the mean), and with ANY
nonempty series — even fewer than 4 points — it computes the statistical
band; not-applicable is never reported. -/
theorem c5_amended :
    (∀ s f : ℚ, peBandRec [] s f =
      ((if f ≠ 0 then f else 20) * (7/10), (if f ≠ 0 then f else 20),
        (if f ≠ 0 then f else 20) * (13/10))) ∧
    (∀ (l : List ℚ) (s f : ℚ), l ≠ [] →
      peBandRec l s f = (max 5 (meanQ l - s), meanQ l, meanQ l + s)) := by
  constructor
  · intro s f
    simp [peBandRec]
  · intro l s f hne
    have hemp : l.isEmpty = false := by
      cases l with
      | nil => exact absurd rfl hne
      | cons a t => rfl
    simp [peBandRec, hemp]

/-- Witness for `c5_amended` on the one-point series `[10]`. -/
theorem c5_amended_witness :
    peBandRec [10] 1 0 = (max 5 (meanQ [10] - 1), meanQ [10], meanQ [10] + 1) :=
  c5_amended.2 [10] 1 0 (by simp)

/-- C6: whenever the standard deviation the statistics step produced is
nonnegative and the EPS is strictly positive, the valuation band built from
the (plausibility-filtered) historical P/E series satisfies
`low ≤ mid ≤ high` — in both the filtered-history branch and the synthesized
fallback branch. -/
theorem c6_band_ordered (raw : List ℚ) (s f eps : ℚ)
    (hstd : 0 ≤ (peStats (filterPE raw) s f).2) (heps : 0 < eps) :
    (priceBandDefault (peBandRec (filterPE raw) s f) eps).1 ≤
      (priceBandDefault (peBandRec (filterPE raw) s f) eps).2.1 ∧
    (priceBandDefault (peBandRec (filterPE raw) s f) eps).2.1 ≤
      (priceBandDefault (peBandRec (filterPE raw) s f) eps).2.2 := by
  have heps' : (0:ℚ) ≤ eps := le_of_lt heps
  rcases hl : (filterPE raw).isEmpty with hfalse | htrue
  · -- nonempty filtered series: mean ≥ 5 and std = s ≥ 0
    have hne : filterPE raw ≠ [] := by
      intro hnil
      rw [hnil] at hl
      simp at hl
    have hmean : 5 ≤ meanQ (filterPE raw) :=
      meanQ_ge_five hne (fun x hx => le_of_lt (mem_filterPE hx).1)
    have hs : 0 ≤ s := by
      have := hstd
      rw [peStats, if_neg (by simp [hl])] at this
      exact this
    have hlow : max 5 (meanQ (filterPE raw) - s) ≤ meanQ (filterPE raw) :=
      max_le hmean (by linarith)
    have hhigh : meanQ (filterPE raw) ≤ meanQ (filterPE raw) + s := by linarith
    constructor
    · simp only [peBandRec, hl, if_false, Bool.false_eq_true, priceBandDefault]
      exact mul_le_mul_of_nonneg_right (round1_mono hlow) heps'
    · simp only [peBandRec, hl, if_false, Bool.false_eq_true, priceBandDefault]
      exact mul_le_mul_of_nonneg_right (round1_mono hhigh) heps'
  · -- empty series: the synthesized band; std ≥ 0 forces the mean ≥ 0
    have hm : 0 ≤ (if f ≠ 0 then f else 20) := by
      have := hstd
      rw [peStats, if_pos hl] at this
      nlinarith
    constructor
    · simp only [peBandRec, hl, if_true, priceBandDefault]
      refine mul_le_mul_of_nonneg_right (round1_mono ?_) heps'
      nlinarith
    · simp only [peBandRec, hl, if_true, priceBandDefault]
      refine mul_le_mul_of_nonneg_right (round1_mono ?_) heps'
      nlinarith

/-- Witness for `c6_band_ordered` on the series `[10, 20]` with std 1,
EPS 2. -/
theorem c6_band_ordered_witness :
    (priceBandDefault (peBandRec (filterPE [10, 20]) 1 0) 2).1 ≤
      (priceBandDefault (peBandRec (filterPE [10, 20]) 1 0) 2).2.1 ∧
    (priceBandDefault (peBandRec (filterPE [10, 20]) 1 0) 2).2.1 ≤
      (priceBandDefault (peBandRec (filterPE [10, 20]) 1 0) 2).2.2 :=
  c6_band_ordered [10, 20] 1 0 2
    (by norm_num [peStats, filterPE, meanQ]) (by norm_num)

/-- Insert a `(date, price)` point into a date-sorted list, keeping the
dates ascending. -/
def insertByDate (p : ℤ × ℚ) : List (ℤ × ℚ) → List (ℤ × ℚ)
  | [] => [p]
  | q :: rest => if p.1 ≤ q.1 then p :: q :: rest else q :: insertByDate p rest

/-- `prices_sorted = data['hist_price'].sort_index()` of `app.py`: sort the
daily price series by date (dates as integer day numbers). -/
def sortByDate (l : List (ℤ × ℚ)) : List (ℤ × ℚ) := l.foldr insertByDate []

/-- The guarded inputs of the price-CAGR computation of `app.py`:
`if len(prices_sorted) >= 252:` take first/last price and date,
`years = (end_date - start_date).days / 365.25`, and proceed only
`if start_price > 0 and end_price > 0 and years > 0`.  Returns
`(start_price, end_price, years)` when every precondition holds. -/
def cagrInputs (series : List (ℤ × ℚ)) : Option (ℚ × ℚ × ℚ) :=
  if 252 ≤ (sortByDate series).length then
    match (sortByDate series).head?, (sortByDate series).getLast? with
    | some (d0, p0), some (d1, p1) =>
      if 0 < p0 ∧ 0 < p1 ∧ 0 < (((d1 - d0 : ℤ) : ℚ) / (1461/4)) then
        some (p0, p1, ((d1 - d0 : ℤ) : ℚ) / (1461/4))
      else none
    | _, _ => none
  else none

/-- Clamp over the reals, mirroring `max(lo, min(x, hi))`. -/
noncomputable def clampR (lo hi x : ℝ) : ℝ := max lo (min x hi)

/-- The price-CAGR formula of `app.py`:
`price_cagr = ((end_price / start_price) ** (1 / years) - 1) * 100.0`
followed by `max(-50.0, min(price_cagr, 200.0))`. -/
noncomputable def cagrFormula (p0 p1 years : ℚ) : ℝ :=
  clampR (-50) 200 ((Real.rpow ((p1 : ℝ) / (p0 : ℝ)) (1 / (years : ℝ)) - 1) * 100)

/-- The historical growth rate `g_h_default` of `app.py`: the clamped price
CAGR when every precondition holds, and the default `10.0` otherwise. -/
noncomputable def gHistorical (series : List (ℤ × ℚ)) : ℝ :=
  (cagrInputs series).elim 10 (fun t => cagrFormula t.1 t.2.1 t.2.2)

/-- C7: on a sorted daily price series of at least 252 points whose first and
last prices are strictly positive and whose dates strictly increase, the
historical growth is the clamped CAGR `((last/first)^(1/years) − 1)·100` with
`years = (lastDate − firstDate)/365.25`, and the base of the fractional power
is strictly positive (no math domain error can arise); whenever any
precondition fails, the result is the default 10.0. -/
theorem c7_price_cagr :
    (∀ (s : List (ℤ × ℚ)) (d0 d1 : ℤ) (p0 p1 : ℚ),
      (sortByDate s).head? = some (d0, p0) →
      (sortByDate s).getLast? = some (d1, p1) →
      252 ≤ (sortByDate s).length →
      0 < p0 → 0 < p1 → d0 < d1 →
      gHistorical s = cagrFormula p0 p1 (((d1 - d0 : ℤ) : ℚ) / (1461/4)) ∧
        (0:ℝ) < (p1 : ℝ) / (p0 : ℝ)) ∧
    (∀ s : List (ℤ × ℚ), cagrInputs s = none → gHistorical s = 10) := by
  constructor
  · intro s d0 d1 p0 p1 h1 h2 hlen hp0 hp1 hd
    have hy : (0:ℚ) < ((d1 - d0 : ℤ) : ℚ) / (1461/4) := by
      apply div_pos
      · exact_mod_cast Int.sub_pos.mpr hd
      · norm_num
    have hc : cagrInputs s = some (p0, p1, ((d1 - d0 : ℤ) : ℚ) / (1461/4)) := by
      unfold cagrInputs
      rw [if_pos hlen]
      simp only [h1, h2]
      rw [if_pos ⟨hp0, hp1, hy⟩]
    constructor
    · unfold gHistorical
      rw [hc]
      rfl
    · apply div_pos
      · exact_mod_cast hp1
      · exact_mod_cast hp0
  · intro s hnone
    unfold gHistorical
    rw [hnone]
    rfl

/-- A constant daily series of 252 points with strictly ascending dates,
used to witness the CAGR theorem. -/
def c7series : List (ℤ × ℚ) := (List.range 252).map (fun i => ((i : ℤ), (1:ℚ)))

set_option maxRecDepth 40000 in
/-- Witness for `c7_price_cagr` on a 252-point constant price series. -/
theorem c7_price_cagr_witness :
    gHistorical c7series = cagrFormula 1 1 (((251 - 0 : ℤ) : ℚ) / (1461/4)) ∧
      (0:ℝ) < ((1:ℚ) : ℝ) / ((1:ℚ) : ℝ) :=
  c7_price_cagr.1 c7series 0 251 1 1 (by decide) (by decide) (by decide)
    (by norm_num) (by norm_num) (by decide)
